import Mathlib

/-!
Shallow embedding of the BLE tag ingestion / derivation service
(`src/routers/endpoints/ble.py`, response models in `src/models.py`,
table models in `src/database.py`).

Modelling conventions:
* Times are integers (epoch seconds).  All datetimes handled by the code are
  produced from integer epoch seconds (`datetime.fromtimestamp(int ...)`) or
  from `datetime.now()` at query/ingest time; the model passes the wall-clock
  instant `now : Int` explicitly.  `datetime.fromtimestamp` is modelled as
  total on integers (its calendar range limits are not modelled).
* Raw advertisement records are JSON-ish maps; the field values that the code
  distinguishes are modelled by `PyVal` (an integer, a string, or
  absent/None — `dict.get` returns `None` both for a missing key and an
  explicit null).  Python truthiness and `int(...)` coercion are modelled on
  these values.
* `str.lower` is modelled by mapping `Char.toLower` over the characters.
* Database queries are modelled over an in-memory list of rows.  Where SQL
  leaves row order unspecified (no ORDER BY, or ties under ORDER BY), the
  model fixes insertion order, which is how the claims' properties are
  order-insensitive anyway.
-/

/-- Python `str.lower()` (models `mac.lower()` at `ble.py:94,197,262`). -/
def pyLower (s : String) : String := String.mk (s.data.map Char.toLower)

/-- Accumulate decimal digits; fails at the first non-digit character. -/
def parseDigitsAux (acc : Nat) : List Char → Option Nat
  | [] => some acc
  | c :: cs => if c.isDigit then parseDigitsAux (acc * 10 + (c.toNat - 48)) cs else none

/-- CPython `int(s)` on a string: an optional sign followed by at least one
decimal digit (the tolerated-but-irrelevant surrounding whitespace and
digit-group underscores of CPython's grammar are not modelled — the claims
only need that some strings coerce and others do not). -/
def pyIntOfString (s : String) : Option Int :=
  match s.data with
  | [] => none
  | c :: cs =>
    if c = '-' then
      match cs with
      | [] => none
      | _ => (parseDigitsAux 0 cs).map (fun n => -(n : Int))
    else if c = '+' then
      match cs with
      | [] => none
      | _ => (parseDigitsAux 0 cs).map (fun n => (n : Int))
    else (parseDigitsAux 0 (c :: cs)).map (fun n => (n : Int))

/-- A JSON-ish value occurring in an advertisement record: the code paths of
`ingest` distinguish integers, strings and None (absent). -/
inductive PyVal where
  | vInt (i : Int)
  | vStr (s : String)
  | vNone
  deriving DecidableEq, Repr

/-- Python truthiness (`if not mac`, `if timestamp`, `if start_time`):
0, "" and None are falsy. -/
def PyVal.truthy : PyVal → Bool
  | .vInt i => i != 0
  | .vStr s => s != ""
  | .vNone => false

/-- Python `int(x)` under `try/except (ValueError, TypeError)`: an int passes
through, a string parses as an integer literal or fails, None fails. -/
def PyVal.intCoerce : PyVal → Option Int
  | .vInt i => some i
  | .vStr s => pyIntOfString s
  | .vNone => none

/-- Python `x.lower()`: succeeds on strings, raises `AttributeError`
(modelled as `none`) on any non-string value. -/
def PyVal.lowerAttr : PyVal → Option String
  | .vStr s => some (pyLower s)
  | _ => none

/-- One raw advertisement record (`item` in the `ingest` loop); each field is
`item.get(...)`, so an absent key is `vNone`. -/
structure RawRecord where
  mac : PyVal
  rssi : PyVal
  battery : PyVal
  tm : PyVal
  deriving DecidableEq, Repr

/-- `models.py` `IngestRequest`: `gw : Optional[str]`, `adv : List[dict]`. -/
structure IngestRequest where
  gw : Option String
  adv : List RawRecord
  deriving DecidableEq, Repr

/-- Python `x or dflt` for an optional string (`payload.gw or "unknown"`,
`tag.gateway_mac or "unknown"`): `None` and `""` are replaced. -/
def pyOrStr (v : Option String) (dflt : String) : String :=
  match v with
  | some s => if s = "" then dflt else s
  | none => dflt

/-- The data of a `TagModel` row as constructed by `ingest` (no id yet). -/
structure NewTag where
  mac : String
  rssi : Int
  gateway_mac : String
  timestamp : Int
  battery_level : PyVal
  deriving DecidableEq, Repr

/-- A stored `tags` row (`database.py` `TagModel`): autoincrement primary key
`id`, `mac`, `rssi`, nullable `gateway_mac` (ON DELETE SET NULL), `timestamp`,
nullable `battery_level`. -/
structure TagRow where
  id : Nat
  mac : String
  rssi : Int
  gateway_mac : Option String
  timestamp : Int
  battery_level : PyVal
  deriving DecidableEq, Repr

/-- A stored `gateways` row (`database.py` `GatewayModel`).  The JSON
`geolocation` column only ever matters through the checks
`gateway.geolocation` truthy, `isinstance(geoloc, dict)`,
`geoloc.get("latitude")`/`geoloc.get("longitude")` not None; a value that
fails any of these checks is represented by a `none` component. -/
structure GatewayRow where
  mac : String
  name : String
  geo_latitude : Option ℚ
  geo_longitude : Option ℚ
  deriving DecidableEq

/-- Processing of one record of the `ingest` loop (`ble.py:86-109`):
skip when `mac` is falsy or `rssi` is None; `mac.lower()` raises on a truthy
non-string `mac` (propagating as an HTTP 500); skip when `int(rssi)` fails;
resolve the timestamp as `int(tm)` when `tm` is truthy and coercible,
falling back to the ingestion-time now. -/
def processAdvRecord (gateway : String) (now : Int) (item : RawRecord) :
    Except Nat (Option NewTag) :=
  if !item.mac.truthy || item.rssi == PyVal.vNone then Except.ok none
  else
    match item.mac.lowerAttr with
    | none => Except.error 500
    | some macL =>
      match item.rssi.intCoerce with
      | none => Except.ok none
      | some r =>
        let ts : Int := if item.tm.truthy then (item.tm.intCoerce).getD now else now
        Except.ok (some { mac := macL, rssi := r, gateway_mac := gateway,
                          timestamp := ts, battery_level := item.battery })

/-- The `ingest` loop over `payload.adv`, collecting the rows to insert; an
exception aborts the whole request (the session dependency rolls back). -/
def collectTags (gateway : String) (now : Int) : List RawRecord → Except Nat (List NewTag)
  | [] => Except.ok []
  | item :: rest =>
    match processAdvRecord gateway now item with
    | Except.error e => Except.error e
    | Except.ok none => collectTags gateway now rest
    | Except.ok (some t) =>
      match collectTags gateway now rest with
      | Except.error e => Except.error e
      | Except.ok ts => Except.ok (t :: ts)

/-- Attach autoincrement ids to freshly inserted rows, in insertion order. -/
def attachIds (nextId : Nat) : List NewTag → List TagRow
  | [] => []
  | t :: ts =>
    { id := nextId, mac := t.mac, rssi := t.rssi, gateway_mac := some t.gateway_mac,
      timestamp := t.timestamp, battery_level := t.battery_level } :: attachIds (nextId + 1) ts

/-- Response of `POST /ingest`: `{"status": "ok", "inserted": len(all_tags)}`. -/
structure IngestResponse where
  status : String
  inserted : Nat
  deriving DecidableEq, Repr

/-- `POST /ingest` (`ble.py:76-116`): validate/normalize the batch, append it
atomically, return the inserted count.  Returns the new store and the
response, or the HTTP error status. -/
def ingest (store : List TagRow) (payload : IngestRequest) (now : Int) :
    Except Nat (List TagRow × IngestResponse) :=
  match collectTags (pyOrStr payload.gw "unknown") now payload.adv with
  | Except.error e => Except.error e
  | Except.ok newTags =>
    Except.ok (store ++ attachIds store.length newTags,
               { status := "ok", inserted := newTags.length })

/-- Rows of the `tags` table with the given (already lowercased) mac
(`WHERE TagModel.mac == mac`). -/
def rowsFor (store : List TagRow) (mac : String) : List TagRow :=
  store.filter (fun t => t.mac == mac)

/-- Whether `t.timestamp` is the maximum timestamp among the rows sharing
`t.mac` — i.e. `t` survives the join with the
`GROUP BY mac / max(timestamp)` subquery of `list_all_stats`. -/
def isLatest (store : List TagRow) (t : TagRow) : Bool :=
  store.all (fun u => u.mac != t.mac || decide (u.timestamp ≤ t.timestamp))

/-- The rows returned by the `list_all_stats` join: every row whose timestamp
equals its mac's maximum (several rows when the maximum is tied).  The SQL
result order is unspecified; the model uses store (insertion) order. -/
def latestRows (store : List TagRow) : List TagRow :=
  store.filter (isLatest store)

/-- Presence classification (`ble.py:122-123,153` and `216-218`):
`threshold = now - timedelta(seconds=10)`;
`"present" if tag.timestamp >= threshold else "absent"`. -/
def presence_of (now ts : Int) : String :=
  if ts ≥ now - 10 then "present" else "absent"

/-- Zero-padded two-digit rendering used by `strftime` fields. -/
def pad2 (n : Int) : String := if n < 10 then "0" ++ toString n else toString n

/-- Gregorian (year, month, day) from days since the Unix epoch (civil
calendar conversion backing the `%d/%m/%Y` rendering). -/
def civilFromDays (z0 : Int) : Int × Int × Int :=
  let z := z0 + 719468
  let era := Int.fdiv z 146097
  let doe := z - era * 146097
  let yoe := (doe - doe / 1460 + doe / 36524 - doe / 146096) / 365
  let y := yoe + era * 400
  let doy := doe - (365 * yoe + yoe / 4 - yoe / 100)
  let mp := (5 * doy + 2) / 153
  let d := doy - (153 * mp + 2) / 5 + 1
  let m := mp + (if mp < 10 then 3 else (-9))
  (y + (if m ≤ 2 then 1 else 0), m, d)

/-- `dt.strftime("%d/%m/%Y %H:%M:%S")` for an epoch-second instant (the
timezone offset is not modelled: rendering is in the model's single clock). -/
def strftimeDmY (ts : Int) : String :=
  let days := Int.fdiv ts 86400
  let secs := ts - days * 86400
  let ymd := civilFromDays days
  let hh := secs / 3600
  let mm := (secs % 3600) / 60
  let ss := secs % 60
  pad2 ymd.2.2 ++ "/" ++ pad2 ymd.2.1 ++ "/" ++ toString ymd.1 ++ " "
    ++ pad2 hh ++ ":" ++ pad2 mm ++ ":" ++ pad2 ss

/-- `humanize_datetime` (`ble.py:19-37`); `now` is the wall clock the source
reads via `datetime.now()` inside the function, at second resolution the
same instant as the enclosing request handler's clock. -/
def humanize_datetime (now ts : Int) : String :=
  let diff := now - ts
  if diff < 60 then
    "há " ++ toString diff ++ " segundo" ++ (if diff = 1 then "" else "s")
  else if diff < 3600 then
    let m := diff / 60
    "há " ++ toString m ++ " minuto" ++ (if m = 1 then "" else "s")
  else if diff < 86400 then
    let h := diff / 3600
    "há " ++ toString h ++ " hora" ++ (if h = 1 then "" else "s")
  else
    let d := diff / 86400
    if d < 7 then "há " ++ toString d ++ " dia" ++ (if d = 1 then "" else "s")
    else strftimeDmY ts

/-- `models.py` `TagStatsResponse` — the pydantic response model of
`GET /stats` and `GET /stats/{mac}`.  It declares exactly these six fields;
in particular it declares NO `latitude`/`longitude` fields, so the
`latitude=tag_lat, longitude=tag_lon` keyword arguments passed by
`ble.py:178-189` and `ble.py:236-245` are ignored by the pydantic
constructor (default `extra` behaviour) and additionally filtered by
`response_model`; the synthesized coordinates can never reach a response. -/
structure TagStatsResponse where
  mac : String
  last_rssi : Int
  gateway : String
  last_seen : Int
  last_seen_humanized : String
  presence : String
  deriving DecidableEq, Repr

/-- Build the stats response for one joined row (`ble.py:178-189,236-245`).
The outer-joined gateway row contributes nothing: it is only read to compute
`tag_lat`/`tag_lon`, which `TagStatsResponse` drops (see above), and gateway
macs are unique (DB constraint), so the join neither multiplies rows nor
affects any declared response field. -/
def mkStatsResponse (now : Int) (t : TagRow) : TagStatsResponse :=
  { mac := t.mac
    last_rssi := t.rssi
    gateway := pyOrStr t.gateway_mac "unknown"
    last_seen := t.timestamp
    last_seen_humanized := humanize_datetime now t.timestamp
    presence := presence_of now t.timestamp }

/-- `GET /stats` (`ble.py:119-191`): one response per row attaining its mac's
maximum timestamp.  The `_gws` gateway table parameter is unused because the
response model drops the only data derived from it (see `TagStatsResponse`). -/
def list_all_stats (store : List TagRow) (_gws : List GatewayRow) (now : Int) :
    List TagStatsResponse :=
  (latestRows store).map (mkStatsResponse now)

/-- Stable insertion (descending timestamps) used to model
`ORDER BY timestamp DESC`; ties keep insertion order (the DB leaves tie
order unspecified; no claim depends on it). -/
def insertDesc (t : TagRow) : List TagRow → List TagRow
  | [] => [t]
  | u :: us => if t.timestamp ≥ u.timestamp then t :: u :: us else u :: insertDesc t us

/-- Stable sort by timestamp descending (`ORDER BY timestamp DESC`). -/
def sortByTimestampDesc : List TagRow → List TagRow
  | [] => []
  | t :: ts => insertDesc t (sortByTimestampDesc ts)

/-- `GET /stats/{mac}` (`ble.py:194-245`): lowercase the path mac, take the
row with the maximal timestamp for it (`ORDER BY timestamp DESC LIMIT 1`),
404 when there is none.  `_gws` is the outer-joined gateways table; see
`mkStatsResponse` for why it cannot influence the response. -/
def get_stats (store : List TagRow) (_gws : List GatewayRow) (mac : String) (now : Int) :
    Except Nat TagStatsResponse :=
  match (sortByTimestampDesc (rowsFor store (pyLower mac))).head? with
  | none => Except.error 404
  | some t => Except.ok (mkStatsResponse now t)

/-- Truthiness of the optional integer query parameters
(`if start_time:` / `if end_time:`): absent OR ZERO means no filter. -/
def intTruthy : Option Int → Bool
  | some i => i != 0
  | none => false

/-- One history entry (`models.py` `TagHistoryEntry`). -/
structure TagHistoryEntry where
  timestamp : Int
  rssi : Int
  gateway : String
  deriving DecidableEq, Repr

/-- `models.py` `TagHistoryResponse`. -/
structure TagHistoryResponse where
  mac : String
  entries : List TagHistoryEntry
  total : Nat
  deriving DecidableEq, Repr

/-- Row to history entry (`ble.py:290-295`). -/
def toHistoryEntry (t : TagRow) : TagHistoryEntry :=
  { timestamp := t.timestamp, rssi := t.rssi, gateway := pyOrStr t.gateway_mac "unknown" }

/-- The `TagModel.timestamp >= start_dt` filter of `get_history`, applied
only when `start_time` is truthy (`if start_time:` — so a supplied 0 applies
no filter). -/
def afterStartRows (store : List TagRow) (macL : String) (start_time : Option Int) :
    List TagRow :=
  if intTruthy start_time then
    (sortByTimestampDesc (rowsFor store macL)).filter
      (fun t => decide (start_time.getD 0 ≤ t.timestamp))
  else sortByTimestampDesc (rowsFor store macL)

/-- The rows of `get_history` after both (truthy-)supplied time bounds,
still in timestamp-descending order.  SQL applies WHERE before
ORDER BY/LIMIT regardless of call order, which filter-on-sorted reproduces. -/
def historyRows (store : List TagRow) (macL : String) (start_time end_time : Option Int) :
    List TagRow :=
  if intTruthy end_time then
    (afterStartRows store macL start_time).filter
      (fun t => decide (t.timestamp ≤ end_time.getD 0))
  else afterStartRows store macL start_time

/-- `GET /history/{mac}` (`ble.py:248-297`).  FastAPI validates
`limit ∈ [1, 1000]` (`Query(default=100, ge=1, le=1000)`) before the handler
runs, rejecting the request with a 422 otherwise; the handler then
lowercases the mac, 404s when the mac has no rows at all, and returns the
rows filtered to the truthy-supplied time bounds, ordered by timestamp
descending, truncated to `limit`; `total` is the returned page size. -/
def get_history (store : List TagRow) (mac : String) (limit : Int := 100)
    (start_time : Option Int := none) (end_time : Option Int := none) :
    Except Nat TagHistoryResponse :=
  if limit < 1 ∨ 1000 < limit then Except.error 422
  else if (rowsFor store (pyLower mac)).isEmpty then Except.error 404
  else
    Except.ok
      { mac := pyLower mac
        entries := ((historyRows store (pyLower mac) start_time end_time).take
                      limit.toNat).map toHistoryEntry
        total := (((historyRows store (pyLower mac) start_time end_time).take
                      limit.toNat).map toHistoryEntry).length }

/-- The MD5-derived hash of the tag mac
(`int(hashlib.md5(tag_mac.encode()).hexdigest(), 16)` at `ble.py:48`).
`hashlib` is the Python standard library, outside this repository; the hash
value is abstracted as an arbitrary natural number — every property proved
below holds for all of its values. -/
def distance_meters (macHash : Nat) : ℚ :=
  1 + ((macHash % 200 : Nat) : ℚ) / 100

/-- `angle_rad = (mac_hash % 360) * (math.pi / 180.0) + (tag_index * 0.5)`
(`ble.py:56`), in exact real arithmetic. -/
noncomputable def angle_rad (macHash : Nat) (tagIndex : Nat) : ℝ :=
  ((macHash % 360 : Nat) : ℝ) * (Real.pi / 180) + (tagIndex : ℝ) * 0.5

/-- `calculate_tag_position` (`ble.py:40-70`) in exact real arithmetic; the
`earth_radius` local of the source is unused there and omitted here.
`math.radians(x)` is `x * π / 180`. -/
noncomputable def calculate_tag_position (gateway_lat gateway_lon : ℝ)
    (macHash : Nat) (tag_index : Nat) : ℝ × ℝ :=
  let distance : ℝ := ((distance_meters macHash : ℚ) : ℝ)
  let angle : ℝ := angle_rad macHash tag_index
  let lat_offset := (distance / 111000) * Real.cos angle
  let lon_offset := (distance / (111000 * Real.cos (gateway_lat * Real.pi / 180))) * Real.sin angle
  (gateway_lat + lat_offset, gateway_lon + lon_offset)

/-- Record validity per the ingestion contract: `mac` a non-empty string and
`rssi` present and `int(...)`-coercible. -/
def validRecord (r : RawRecord) : Bool :=
  (match r.mac with | PyVal.vStr s => s != "" | _ => false) && (r.rssi.intCoerce).isSome

/-- A record whose `mac` value cannot raise on `.lower()`: a string, or a
falsy value (which the loop skips before calling `.lower()`). -/
def macIsStrOrFalsy (r : RawRecord) : Bool :=
  match r.mac with
  | PyVal.vStr _ => true
  | v => !v.truthy

/-- Concrete one-row store: the result of ingesting
`{"mac": "AA:..", "rssi": -1, "tm": 100}` from gateway `gw1` (mac shortened
to `"aa"` for readability). -/
def exStore1 : List TagRow :=
  [{ id := 0, mac := "aa", rssi := -1, gateway_mac := some "gw1",
     timestamp := 100, battery_level := PyVal.vNone }]

/-- Concrete two-row store with a tied maximum timestamp for mac `"aa"`:
two records ingested with the same `tm` and different `rssi`. -/
def exStore2 : List TagRow :=
  [{ id := 0, mac := "aa", rssi := -1, gateway_mac := some "g",
     timestamp := 100, battery_level := PyVal.vNone },
   { id := 1, mac := "aa", rssi := -2, gateway_mac := some "g",
     timestamp := 100, battery_level := PyVal.vNone }]

/-- Concrete gateways table: `gw1` has a geolocation with both coordinates. -/
def exGateways : List GatewayRow :=
  [{ mac := "gw1", name := "G1", geo_latitude := some 1, geo_longitude := some 2 }]

/-- Concrete two-row store for mac `"aa"` with a unique maximum timestamp
(two ingests at different timestamps, the later one carrying rssi `-9`). -/
def exStore3 : List TagRow :=
  [{ id := 0, mac := "aa", rssi := -1, gateway_mac := some "g",
     timestamp := 50, battery_level := PyVal.vNone },
   { id := 1, mac := "aa", rssi := -9, gateway_mac := some "g",
     timestamp := 100, battery_level := PyVal.vNone }]

/-- The unique-latest row of `exStore3`. -/
def exRow3 : TagRow :=
  { id := 1, mac := "aa", rssi := -9, gateway_mac := some "g",
    timestamp := 100, battery_level := PyVal.vNone }

/-- Concrete ingestion batch: one valid record, one record with an absent
mac, one record with a non-integer rssi string — only the first inserts. -/
def exPayload : IngestRequest :=
  { gw := some "g"
    adv := [{ mac := PyVal.vStr "AA", rssi := PyVal.vStr "-60",
              battery := PyVal.vNone, tm := PyVal.vInt 10 },
            { mac := PyVal.vNone, rssi := PyVal.vInt 5,
              battery := PyVal.vNone, tm := PyVal.vNone },
            { mac := PyVal.vStr "BB", rssi := PyVal.vStr "x",
              battery := PyVal.vNone, tm := PyVal.vNone }] }

/-! ## Helper lemmas -/

theorem char_toLower_toLower (c : Char) :
    Char.toLower (Char.toLower c) = Char.toLower c := by
  unfold Char.toLower
  by_cases h : c.toNat ≥ 65 ∧ c.toNat ≤ 90
  · rw [if_pos h]
    have hv : (c.toNat + 32).isValidChar := Or.inl (by omega)
    have hval : (Char.ofNat (c.toNat + 32)).toNat = c.toNat + 32 := by
      rw [Char.ofNat, dif_pos hv]
      rfl
    rw [if_neg (by rw [hval]; omega)]
  · rw [if_neg h, if_neg h]

theorem pyLower_idem (s : String) : pyLower (pyLower s) = pyLower s := by
  show String.mk ((s.data.map Char.toLower).map Char.toLower)
      = String.mk (s.data.map Char.toLower)
  rw [List.map_map]
  congr 1
  exact List.map_congr_left (fun c _ => char_toLower_toLower c)

theorem length_insertDesc (t : TagRow) (l : List TagRow) :
    (insertDesc t l).length = l.length + 1 := by
  induction l with
  | nil => rfl
  | cons u us ih =>
    unfold insertDesc
    by_cases h : t.timestamp ≥ u.timestamp
    · rw [if_pos h]
      rfl
    · rw [if_neg h]
      simp [ih]

theorem length_sortByTimestampDesc (l : List TagRow) :
    (sortByTimestampDesc l).length = l.length := by
  induction l with
  | nil => rfl
  | cons t ts ih =>
    unfold sortByTimestampDesc
    rw [length_insertDesc, ih]
    rfl

theorem mem_insertDesc {x t : TagRow} {l : List TagRow} :
    x ∈ insertDesc t l ↔ x = t ∨ x ∈ l := by
  induction l with
  | nil => simp [insertDesc]
  | cons u us ih =>
    unfold insertDesc
    by_cases h : t.timestamp ≥ u.timestamp
    · rw [if_pos h]
      simp only [List.mem_cons]
    · rw [if_neg h]
      simp only [List.mem_cons, ih]
      tauto

theorem mem_sortByTimestampDesc {x : TagRow} {l : List TagRow} :
    x ∈ sortByTimestampDesc l ↔ x ∈ l := by
  induction l with
  | nil => simp [sortByTimestampDesc]
  | cons t ts ih =>
    unfold sortByTimestampDesc
    rw [mem_insertDesc]
    simp only [List.mem_cons, ih]

theorem sorted_insertDesc {t : TagRow} {l : List TagRow}
    (h : l.Pairwise (fun a b => b.timestamp ≤ a.timestamp)) :
    (insertDesc t l).Pairwise (fun a b => b.timestamp ≤ a.timestamp) := by
  induction l with
  | nil => simp [insertDesc]
  | cons u us ih =>
    rcases List.pairwise_cons.mp h with ⟨hu, hus⟩
    unfold insertDesc
    by_cases hc : t.timestamp ≥ u.timestamp
    · rw [if_pos hc]
      refine List.pairwise_cons.mpr ⟨?_, h⟩
      intro b hb
      rcases List.mem_cons.mp hb with rfl | hb'
      · exact hc
      · exact le_trans (hu b hb') hc
    · rw [if_neg hc]
      refine List.pairwise_cons.mpr ⟨?_, ih hus⟩
      intro b hb
      rcases mem_insertDesc.mp hb with rfl | hb'
      · omega
      · exact hu b hb'

theorem sorted_sortByTimestampDesc (l : List TagRow) :
    (sortByTimestampDesc l).Pairwise (fun a b => b.timestamp ≤ a.timestamp) := by
  induction l with
  | nil => simp [sortByTimestampDesc]
  | cons t ts ih => exact sorted_insertDesc ih

theorem sorted_historyRows (store : List TagRow) (macL : String)
    (start_time end_time : Option Int) :
    (historyRows store macL start_time end_time).Pairwise
      (fun a b => b.timestamp ≤ a.timestamp) := by
  have hs : (afterStartRows store macL start_time).Pairwise
      (fun a b => b.timestamp ≤ a.timestamp) := by
    unfold afterStartRows
    split
    · exact (sorted_sortByTimestampDesc _).sublist (List.filter_sublist _)
    · exact sorted_sortByTimestampDesc _
  unfold historyRows
  split
  · exact hs.sublist (List.filter_sublist _)
  · exact hs

theorem mem_afterStartRows {store : List TagRow} {macL : String}
    {start_time : Option Int} {t : TagRow} :
    t ∈ afterStartRows store macL start_time ↔
      t ∈ rowsFor store macL
      ∧ (∀ s, start_time = some s → s ≠ 0 → s ≤ t.timestamp) := by
  unfold afterStartRows
  split
  next h =>
    rw [List.mem_filter, mem_sortByTimestampDesc]
    cases start_time with
    | none => simp [intTruthy] at h
    | some s =>
      simp only [intTruthy, bne_iff_ne, ne_eq] at h
      have hiff : (∀ u : Int, (some s : Option Int) = some u → u ≠ 0 → u ≤ t.timestamp)
          ↔ s ≤ t.timestamp := by
        constructor
        · intro ha
          exact ha s rfl h
        · intro hle u hu _
          cases hu
          exact hle
      rw [hiff]
      simp
  next h =>
    rw [mem_sortByTimestampDesc]
    cases start_time with
    | none => simp
    | some s =>
      simp only [intTruthy, bne_iff_ne, ne_eq, not_not] at h
      subst h
      simp

theorem mem_historyRows {store : List TagRow} {macL : String}
    {start_time end_time : Option Int} {t : TagRow} :
    t ∈ historyRows store macL start_time end_time ↔
      t ∈ rowsFor store macL
      ∧ (∀ s, start_time = some s → s ≠ 0 → s ≤ t.timestamp)
      ∧ (∀ s, end_time = some s → s ≠ 0 → t.timestamp ≤ s) := by
  unfold historyRows
  split
  next h =>
    rw [List.mem_filter, mem_afterStartRows]
    cases end_time with
    | none => simp [intTruthy] at h
    | some s =>
      simp only [intTruthy, bne_iff_ne, ne_eq] at h
      have hiff : (∀ u : Int, (some s : Option Int) = some u → u ≠ 0 → t.timestamp ≤ u)
          ↔ t.timestamp ≤ s := by
        constructor
        · intro ha
          exact ha s rfl h
        · intro hle u hu _
          cases hu
          exact hle
      rw [hiff]
      simp [and_assoc]
  next h =>
    rw [mem_afterStartRows]
    cases end_time with
    | none => simp
    | some s =>
      simp only [intTruthy, bne_iff_ne, ne_eq, not_not] at h
      subst h
      simp

theorem mkStatsResponse_mac (now : Int) (t : TagRow) :
    (mkStatsResponse now t).mac = t.mac := rfl

theorem all_eq_rowsFor_all (l : List TagRow) {t : TagRow} {m : String}
    (h : t.mac = m) :
    l.all (fun u => u.mac != t.mac || decide (u.timestamp ≤ t.timestamp))
      = (rowsFor l m).all (fun u => decide (u.timestamp ≤ t.timestamp)) := by
  subst h
  induction l with
  | nil => rfl
  | cons u us ih =>
    unfold rowsFor at *
    rw [List.filter_cons]
    by_cases hb : u.mac == t.mac
    · rw [if_pos hb]
      have hf : (u.mac != t.mac) = false := by
        simp [bne, hb]
      rw [List.all_cons, List.all_cons, ih, hf, Bool.false_or]
    · rw [if_neg hb]
      have hf : (u.mac != t.mac) = true := by
        simpa using hb
      rw [List.all_cons, hf, Bool.true_or, Bool.true_and, ih]

theorem stats_filter_eq (store : List TagRow) (gws : List GatewayRow)
    (now : Int) (m : String) :
    (list_all_stats store gws now).filter (fun e => e.mac == m)
      = ((rowsFor store m).filter
          (fun t => (rowsFor store m).all
            (fun u => decide (u.timestamp ≤ t.timestamp)))).map
          (mkStatsResponse now) := by
  unfold list_all_stats latestRows
  rw [List.filter_map]
  congr 1
  rw [List.filter_filter]
  unfold rowsFor
  rw [List.filter_filter]
  apply List.filter_congr
  intro t _
  simp only [Function.comp, mkStatsResponse_mac]
  unfold isLatest
  by_cases hm : t.mac == m
  · have hmac : t.mac = m := eq_of_beq hm
    rw [all_eq_rowsFor_all store hmac]
    unfold rowsFor
    simp [hm, Bool.and_comm]
  · have hm' : (t.mac == m) = false := Bool.eq_false_iff.mpr hm
    simp [hm']

theorem filter_unique {p : TagRow → Bool} {l : List TagRow} {t : TagRow}
    (hmem : t ∈ l) (hpair : l.Pairwise (fun a b => a.id ≠ b.id))
    (hpt : p t = true) (hother : ∀ u ∈ l, u ≠ t → p u = false) :
    l.filter p = [t] := by
  induction l with
  | nil => cases hmem
  | cons u us ih =>
    rcases List.pairwise_cons.mp hpair with ⟨hu, hus⟩
    rcases List.mem_cons.mp hmem with rfl | hmem'
    · rw [List.filter_cons_of_pos hpt]
      have : us.filter p = [] := by
        rw [List.filter_eq_nil_iff]
        intro v hv
        have hne : v ≠ t := by
          intro he
          exact (hu v hv) (by rw [he])
        simp [hother v (List.mem_cons_of_mem _ hv) hne]
      rw [this]
    · have hne : u ≠ t := by
        intro he
        subst he
        exact (hu u hmem') rfl
      rw [List.filter_cons_of_neg (by simp [hother u (List.mem_cons_self u us) hne])]
      exact ih hmem' hus (fun v hv hvt => hother v (List.mem_cons_of_mem _ hv) hvt)

theorem processAdvRecord_ok (gateway : String) (now : Int) (item : RawRecord)
    (h : macIsStrOrFalsy item = true) :
    ∃ o, processAdvRecord gateway now item = Except.ok o
      ∧ o.isSome = validRecord item := by
  unfold processAdvRecord validRecord
  cases hmac : item.mac with
  | vInt i =>
    unfold macIsStrOrFalsy at h
    rw [hmac] at h
    simp only [PyVal.truthy, Bool.not_eq_true'] at h
    refine ⟨none, ?_, by simp⟩
    rw [if_pos]
    simp [PyVal.truthy, h]
  | vNone =>
    refine ⟨none, ?_, by simp⟩
    rw [if_pos]
    simp [PyVal.truthy]
  | vStr s =>
    by_cases hs : s = ""
    · subst hs
      refine ⟨none, ?_, by simp⟩
      rw [if_pos]
      simp [PyVal.truthy]
    · have hst : (!(PyVal.vStr s).truthy) = false := by
        simp [PyVal.truthy, hs]
      cases hrssi : item.rssi with
      | vNone =>
        refine ⟨none, ?_, by simp [PyVal.intCoerce]⟩
        rw [if_pos]
        simp
      | vInt i =>
        rw [if_neg (by simp [hst])]
        refine ⟨_, rfl, ?_⟩
        simp [PyVal.intCoerce, hs]
      | vStr r =>
        rw [if_neg (by simp [hst])]
        simp only [PyVal.lowerAttr, PyVal.intCoerce]
        cases hc : pyIntOfString r with
        | none =>
          refine ⟨none, rfl, ?_⟩
          simp
        | some v =>
          refine ⟨_, rfl, ?_⟩
          simp [hs]

theorem collectTags_ok (gateway : String) (now : Int) (l : List RawRecord)
    (h : l.all macIsStrOrFalsy = true) :
    ∃ ts, collectTags gateway now l = Except.ok ts
      ∧ ts.length = (l.filter validRecord).length := by
  induction l with
  | nil => exact ⟨[], rfl, rfl⟩
  | cons item rest ih =>
    rw [List.all_cons, Bool.and_eq_true] at h
    obtain ⟨ts, hts, hlen⟩ := ih h.2
    obtain ⟨o, ho, hvalid⟩ := processAdvRecord_ok gateway now item h.1
    cases o with
    | none =>
      refine ⟨ts, ?_, ?_⟩
      · unfold collectTags
        rw [ho]
        exact hts
      · rw [List.filter_cons, if_neg (by simp [← hvalid])]
        exact hlen
    | some t =>
      refine ⟨t :: ts, ?_, ?_⟩
      · unfold collectTags
        rw [ho, hts]
      · rw [List.filter_cons, if_pos (by simp [← hvalid])]
        simp [hlen]

/-! ## Claim theorems -/

/-- Claim C1, counterexample: a single-record batch whose `mac` field is a
truthy non-string (the integer 1) and whose `rssi` is present and
integer-coercible is neither counted nor silently dropped — `mac.lower()`
raises `AttributeError` and the request fails with an error (HTTP 500),
contradicting "every other record is silently dropped and contributes ...
no error to the caller". -/
theorem c1_nonstring_mac_errors :
    ingest [] { gw := some "g",
                adv := [{ mac := PyVal.vInt 1, rssi := PyVal.vInt 2,
                          battery := PyVal.vNone, tm := PyVal.vNone }] } 100
      = Except.error 500 := rfl

/-- Claim C1, amended: for every batch in which each record's `mac` value is
a string or falsy (so that `.lower()` cannot raise), ingestion succeeds and
the returned inserted count equals the number of records with a non-empty
string `mac` and a present, integer-coercible `rssi`; all other records are
silently dropped. -/
theorem c1_inserted_count (store : List TagRow) (payload : IngestRequest)
    (now : Int) (h : payload.adv.all macIsStrOrFalsy = true) :
    ∃ store', ingest store payload now
      = Except.ok (store',
          { status := "ok", inserted := (payload.adv.filter validRecord).length }) := by
  obtain ⟨ts, hts, hlen⟩ := collectTags_ok (pyOrStr payload.gw "unknown") now payload.adv h
  refine ⟨store ++ attachIds store.length ts, ?_⟩
  unfold ingest
  rw [hts]
  simp [hlen]

/-- Witness for `c1_inserted_count` at the concrete batch `exPayload`
(one valid record, one with absent mac, one with uncoercible rssi):
the hypothesis holds and exactly one record is counted. -/
theorem c1_inserted_count_witness :
    exPayload.adv.all macIsStrOrFalsy = true
    ∧ ∃ store', ingest [] exPayload 100
        = Except.ok (store', { status := "ok", inserted := 1 }) :=
  ⟨by decide, c1_inserted_count [] exPayload 100 (by decide)⟩

/-- Claim C2, counterexample: two records for the same mac with the SAME
timestamp are both inserted (reaching the store `exStore2`), and
`list_all_stats` then returns TWO entries for that mac — the
max-timestamp join does not collapse ties, contradicting "returns exactly
one entry for that tagMac ... ties in maximum timestamp are broken
deterministically". -/
theorem c2_tied_timestamps_two_entries :
    ingest [] { gw := some "g",
                adv := [{ mac := PyVal.vStr "AA", rssi := PyVal.vInt (-1),
                          battery := PyVal.vNone, tm := PyVal.vInt 100 },
                        { mac := PyVal.vStr "aa", rssi := PyVal.vInt (-2),
                          battery := PyVal.vNone, tm := PyVal.vInt 100 }] } 500
      = Except.ok (exStore2, { status := "ok", inserted := 2 })
    ∧ (list_all_stats exStore2 [] 600).map (fun e => e.mac) = ["aa", "aa"] :=
  ⟨rfl, rfl⟩

/-- Claim C2, amended: for every store (with the primary-key invariant that
row ids are distinct) and mac, the `list_all_stats` entries carrying that
mac are exactly the responses for the rows of that mac whose timestamp is
maximal among that mac's rows (one entry per tying row); in particular,
when one row strictly dominates all other rows of its mac — e.g. after two
ingests of the same mac at different timestamps — there is exactly one
entry, and it reflects that latest row (its rssi and timestamp). -/
theorem c2_latest_per_mac (store : List TagRow) (gws : List GatewayRow)
    (now : Int) (m : String)
    (hid : store.Pairwise (fun a b => a.id ≠ b.id)) :
    ((list_all_stats store gws now).filter (fun e => e.mac == m)
      = ((rowsFor store m).filter
          (fun t => (rowsFor store m).all
            (fun u => decide (u.timestamp ≤ t.timestamp)))).map
          (mkStatsResponse now))
    ∧ (∀ t ∈ rowsFor store m,
        (∀ u ∈ rowsFor store m, u ≠ t → u.timestamp < t.timestamp) →
        (list_all_stats store gws now).filter (fun e => e.mac == m)
          = [mkStatsResponse now t]) := by
  constructor
  · exact stats_filter_eq store gws now m
  · intro t hmem hmax
    rw [stats_filter_eq store gws now m]
    have hpair : (rowsFor store m).Pairwise (fun a b => a.id ≠ b.id) :=
      hid.sublist (List.filter_sublist _)
    rw [filter_unique hmem hpair ?hpt ?hother]
    case _ => rfl
    case hpt =>
      rw [List.all_eq_true]
      intro u hu
      by_cases he : u = t
      · subst he
        simp
      · have := hmax u hu he
        simp
        omega
    case hother =>
      intro u hu hne
      rw [Bool.eq_false_iff]
      intro hall
      rw [List.all_eq_true] at hall
      have := hall t hmem
      have hlt := hmax u hu hne
      simp at this
      omega

/-- Witness for `c2_latest_per_mac` at the concrete store `exStore3`
(same mac at timestamps 50 and 100): the single stats entry for `"aa"`
is the response built from the strictly-latest row `exRow3`. -/
theorem c2_latest_per_mac_witness :
    (list_all_stats exStore3 [] 600).filter (fun e => e.mac == "aa")
      = [mkStatsResponse 600 exRow3] :=
  (c2_latest_per_mac exStore3 [] 600 "aa" (by decide)).2 exRow3 (by decide)
    (by decide)

/-- Claim C3: in both `list_all_stats` and `get_stats` every entry's
presence field is computed by the single fixed comparison
`timestamp >= now - 10`; an event exactly 10 seconds before `now` is
classified `present` (the boundary is present-inclusive), and any event
older than 10 seconds is classified `absent`. -/
theorem c3_presence_boundary (store : List TagRow) (gws : List GatewayRow)
    (mac : String) (now : Int) :
    (∀ e ∈ list_all_stats store gws now, e.presence = presence_of now e.last_seen)
    ∧ (∀ resp, get_stats store gws mac now = Except.ok resp →
        resp.presence = presence_of now resp.last_seen)
    ∧ presence_of now (now - 10) = "present"
    ∧ (∀ ts : Int, ts < now - 10 → presence_of now ts = "absent") := by
  refine ⟨?_, ?_, ?_, ?_⟩
  · intro e he
    unfold list_all_stats at he
    rw [List.mem_map] at he
    obtain ⟨t, -, rfl⟩ := he
    rfl
  · intro resp h
    unfold get_stats at h
    cases hh : (sortByTimestampDesc (rowsFor store (pyLower mac))).head? with
    | none =>
      rw [hh] at h
      exact absurd h (by simp)
    | some t =>
      rw [hh] at h
      simp only [Except.ok.injEq] at h
      subst h
      rfl
  · unfold presence_of
    rw [if_pos le_rfl]
  · intro ts hts
    unfold presence_of
    rw [if_neg (by omega)]

/-- Witness for `c3_presence_boundary`: at `now = 100`, the boundary
timestamp 90 is `present` and the older timestamp 85 is `absent`. -/
theorem c3_presence_boundary_witness :
    presence_of 100 (100 - 10) = "present" ∧ presence_of 100 85 = "absent" :=
  ⟨(c3_presence_boundary [] [] "aa" 100).2.2.1,
   (c3_presence_boundary [] [] "aa" 100).2.2.2 85 (by norm_num)⟩

/-- Claim C4, evaluated at the failing input: with one event for tag `"aa"`
reported by gateway `gw1`, and `gw1` present in the gateways table WITH a
geolocation carrying both coordinates, the `/stats` and `/stats/{mac}`
responses are exactly the six-field record of `models.py` — no latitude or
longitude is (or can be) included, and the response is identical to the one
produced with an empty gateways table.  (`ble.py` computes and passes
`latitude=`/`longitude=`, but `models.py`'s `TagStatsResponse` declares no
such fields, so pydantic discards them; `map.py` filters tags on
`tag.latitude` and therefore never shows tag markers.) -/
theorem c4_coordinates_never_in_response :
    list_all_stats exStore1 exGateways 500
      = [{ mac := "aa", last_rssi := -1, gateway := "gw1", last_seen := 100,
           last_seen_humanized := "há 6 minutos", presence := "absent" }]
    ∧ list_all_stats exStore1 [] 500 = list_all_stats exStore1 exGateways 500
    ∧ get_stats exStore1 exGateways "AA" 500
      = Except.ok { mac := "aa", last_rssi := -1, gateway := "gw1", last_seen := 100,
                    last_seen_humanized := "há 6 minutos", presence := "absent" } :=
  ⟨rfl, rfl, rfl⟩

/-- Claim C5: the position synthesizer is a pure deterministic function;
for every hash value, `distance_meters` is `1 + (hash % 200)/100`, which
lies in `[1, 3)`; for the same mac (hash) the angles at ordinal indices 0
and 1 differ by exactly 0.5 radians; and identical inputs yield identical
outputs. -/
theorem c5_position_synthesizer (gateway_lat gateway_lon : ℝ)
    (macHash tag_index : Nat) :
    (1 ≤ distance_meters macHash ∧ distance_meters macHash < 3)
    ∧ angle_rad macHash 1 = angle_rad macHash 0 + 0.5
    ∧ calculate_tag_position gateway_lat gateway_lon macHash tag_index
        = calculate_tag_position gateway_lat gateway_lon macHash tag_index := by
  refine ⟨⟨?_, ?_⟩, ?_, rfl⟩
  · unfold distance_meters
    have h : (0 : ℚ) ≤ ((macHash % 200 : Nat) : ℚ) := by positivity
    linarith
  · unfold distance_meters
    have h : ((macHash % 200 : Nat) : ℚ) < 200 := by
      exact_mod_cast Nat.mod_lt _ (by norm_num)
    linarith
  · unfold angle_rad
    push_cast
    ring

/-- Claim C6, counterexample: two events for the same mac with equal
timestamps (store `exStore2`, reachable by ingesting two records with the
same `tm`) make `get_history` return two entries with EQUAL timestamps —
descending, but not STRICTLY descending as claimed. -/
theorem c6_tied_timestamps_not_strict :
    get_history exStore2 "aa" 100 none none
      = Except.ok { mac := "aa",
                    entries := [{ timestamp := 100, rssi := -1, gateway := "g" },
                                { timestamp := 100, rssi := -2, gateway := "g" }],
                    total := 2 }
    ∧ ¬ List.Pairwise (fun a b : TagHistoryEntry => b.timestamp < a.timestamp)
        [{ timestamp := 100, rssi := -1, gateway := "g" },
         { timestamp := 100, rssi := -2, gateway := "g" }] :=
  ⟨rfl, fun h => by
    rcases List.pairwise_cons.mp h with ⟨hrel, -⟩
    have := hrel _ (List.mem_cons_self _ _)
    norm_num at this⟩

/-- Claim C6, amended: every successful `get_history` call returns entries
in NON-INCREASING (descending, ties possible) timestamp order; the number
of entries never exceeds the requested limit nor 1000, and success implies
the limit was within `[1, 1000]` (FastAPI rejects anything else with a 422;
the declared default is 100 and the declared minimum is 1). -/
theorem c6_history_order_and_limit (store : List TagRow) (mac : String)
    (limit : Int) (start_time end_time : Option Int) (resp : TagHistoryResponse)
    (h : get_history store mac limit start_time end_time = Except.ok resp) :
    resp.entries.Pairwise (fun a b => b.timestamp ≤ a.timestamp)
    ∧ resp.entries.length ≤ limit.toNat
    ∧ resp.entries.length ≤ 1000
    ∧ 1 ≤ limit ∧ limit ≤ 1000 := by
  unfold get_history at h
  split at h
  · exact absurd h (by simp)
  next hlim =>
    split at h
    · exact absurd h (by simp)
    · simp only [Except.ok.injEq] at h
      subst h
      push_neg at hlim
      refine ⟨?_, ?_, ?_, by omega, by omega⟩
      · refine List.pairwise_map.mpr ?_
        exact (sorted_historyRows store (pyLower mac) start_time end_time).take
      · simp only [List.length_map, List.length_take]
        omega
      · simp only [List.length_map, List.length_take]
        omega

/-- Witness for `c6_history_order_and_limit` at the concrete successful
call of `exStore3`'s history. -/
theorem c6_history_order_and_limit_witness :
    ([{ timestamp := 100, rssi := -9, gateway := "g" },
      { timestamp := 50, rssi := -1, gateway := "g" }]
        : List TagHistoryEntry).Pairwise (fun a b => b.timestamp ≤ a.timestamp)
    ∧ ([{ timestamp := 100, rssi := -9, gateway := "g" },
        { timestamp := 50, rssi := -1, gateway := "g" }]
          : List TagHistoryEntry).length ≤ (100 : Int).toNat
    ∧ ([{ timestamp := 100, rssi := -9, gateway := "g" },
        { timestamp := 50, rssi := -1, gateway := "g" }]
          : List TagHistoryEntry).length ≤ 1000
    ∧ 1 ≤ (100 : Int) ∧ (100 : Int) ≤ 1000 :=
  c6_history_order_and_limit exStore3 "aa" 100 none none
    { mac := "aa",
      entries := [{ timestamp := 100, rssi := -9, gateway := "g" },
                  { timestamp := 50, rssi := -1, gateway := "g" }],
      total := 2 } rfl

/-- Claim C7, counterexample: `tm = 0` is present and integer-coercible
(`int(0) = 0`), yet the stored timestamp is the ingestion-time now (777),
not 0 — `ts = int(tm) if tm else int(time.time())` tests Python
truthiness, and the integer 0 is falsy. -/
theorem c7_zero_tm_stored_as_now :
    (PyVal.vInt 0).intCoerce = some 0
    ∧ ingest [] { gw := some "g",
                  adv := [{ mac := PyVal.vStr "AA", rssi := PyVal.vInt (-60),
                            battery := PyVal.vNone, tm := PyVal.vInt 0 }] } 777
      = Except.ok ([{ id := 0, mac := "aa", rssi := -60, gateway_mac := some "g",
                      timestamp := 777, battery_level := PyVal.vNone }],
                   { status := "ok", inserted := 1 }) :=
  ⟨rfl, rfl⟩

/-- Claim C7, amended: for every record that produces a stored event, the
event timestamp is `int(tm)` when `tm` is present with a TRUTHY value
(nonzero integer / nonempty string) that is integer-coercible, and the
ingestion-time now otherwise (absent, falsy such as 0 or "", or not
coercible). -/
theorem c7_timestamp_resolution (gateway : String) (now : Int) (item : RawRecord)
    (t : NewTag) (h : processAdvRecord gateway now item = Except.ok (some t)) :
    t.timestamp = (if item.tm.truthy then (item.tm.intCoerce).getD now else now) := by
  unfold processAdvRecord at h
  split at h
  · simp at h
  · cases hm : item.mac.lowerAttr with
    | none =>
      rw [hm] at h
      simp at h
    | some macL =>
      rw [hm] at h
      cases hr : item.rssi.intCoerce with
      | none =>
        rw [hr] at h
        simp at h
      | some r =>
        rw [hr] at h
        simp only [Except.ok.injEq, Option.some.injEq] at h
        subst h
        rfl

/-- Witness for `c7_timestamp_resolution`: a record with the truthy,
coercible `tm = "7"` stores timestamp 7 (not the now 100). -/
theorem c7_timestamp_resolution_witness :
    processAdvRecord "g" 100
        { mac := PyVal.vStr "AA", rssi := PyVal.vInt 1,
          battery := PyVal.vNone, tm := PyVal.vStr "7" }
      = Except.ok (some { mac := "aa", rssi := 1, gateway_mac := "g",
                          timestamp := 7, battery_level := PyVal.vNone })
    ∧ ({ mac := "aa", rssi := 1, gateway_mac := "g", timestamp := 7,
         battery_level := PyVal.vNone } : NewTag).timestamp
      = (if (PyVal.vStr "7").truthy then ((PyVal.vStr "7").intCoerce).getD 100 else 100) :=
  ⟨rfl, c7_timestamp_resolution "g" 100
      { mac := PyVal.vStr "AA", rssi := PyVal.vInt 1,
        battery := PyVal.vNone, tm := PyVal.vStr "7" }
      { mac := "aa", rssi := 1, gateway_mac := "g",
        timestamp := 7, battery_level := PyVal.vNone } rfl⟩

/-- Claim C8, counterexample: with `end_time = 0` SUPPLIED, the bound is
silently ignored (`if end_time:` is false for 0) and an entry with
timestamp 100 is returned even though `100 ≤ 0` is false — the claimed
inclusive upper bound is violated. -/
theorem c8_zero_bound_ignored :
    get_history exStore1 "aa" 100 none (some 0)
      = Except.ok { mac := "aa",
                    entries := [{ timestamp := 100, rssi := -1, gateway := "gw1" }],
                    total := 1 }
    ∧ ¬ ((100 : Int) ≤ 0) :=
  ⟨rfl, by norm_num⟩

/-- Claim C8, amended: time bounds are applied only when supplied AND
nonzero (truthy).  Every returned entry satisfies every supplied nonzero
bound inclusively, and — completeness — whenever fewer than `limit` entries
are returned, every stored event of the queried (lowercased) mac meeting
the supplied nonzero bounds appears among the entries. -/
theorem c8_history_bounds (store : List TagRow) (mac : String) (limit : Int)
    (start_time end_time : Option Int) (resp : TagHistoryResponse)
    (h : get_history store mac limit start_time end_time = Except.ok resp) :
    (∀ e ∈ resp.entries,
        (∀ s, start_time = some s → s ≠ 0 → s ≤ e.timestamp)
        ∧ (∀ s, end_time = some s → s ≠ 0 → e.timestamp ≤ s))
    ∧ (resp.entries.length < limit.toNat →
        ∀ t ∈ store, t.mac = pyLower mac →
          (∀ s, start_time = some s → s ≠ 0 → s ≤ t.timestamp) →
          (∀ s, end_time = some s → s ≠ 0 → t.timestamp ≤ s) →
          toHistoryEntry t ∈ resp.entries) := by
  unfold get_history at h
  split at h
  · exact absurd h (by simp)
  · split at h
    · exact absurd h (by simp)
    · simp only [Except.ok.injEq] at h
      subst h
      constructor
      · intro e he
        simp only [List.mem_map] at he
        obtain ⟨t, ht, rfl⟩ := he
        have ht' : t ∈ historyRows store (pyLower mac) start_time end_time :=
          List.mem_of_mem_take ht
        rw [mem_historyRows] at ht'
        exact ⟨ht'.2.1, ht'.2.2⟩
      · intro hlen t htin hmac hstart hend
        have hmem : t ∈ historyRows store (pyLower mac) start_time end_time := by
          rw [mem_historyRows]
          refine ⟨?_, hstart, hend⟩
          unfold rowsFor
          rw [List.mem_filter]
          exact ⟨htin, by simp [hmac]⟩
        have htake : (historyRows store (pyLower mac) start_time end_time).take limit.toNat
            = historyRows store (pyLower mac) start_time end_time := by
          apply List.take_of_length_le
          simp only [List.length_map, List.length_take] at hlen
          omega
        rw [List.mem_map]
        exact ⟨t, by rw [htake]; exact hmem, rfl⟩

/-- Witness for `c8_history_bounds` at a concrete call with both bounds
supplied and nonzero around `exStore3`'s two events.  -/
theorem c8_history_bounds_witness :
    (∀ e ∈ ([{ timestamp := 100, rssi := -9, gateway := "g" }]
        : List TagHistoryEntry),
        (∀ s, (some (60 : Int) : Option Int) = some s → s ≠ 0 → s ≤ e.timestamp)
        ∧ (∀ s, (some (150 : Int) : Option Int) = some s → s ≠ 0 → e.timestamp ≤ s))
    ∧ (([{ timestamp := 100, rssi := -9, gateway := "g" }]
          : List TagHistoryEntry).length < (100 : Int).toNat →
        ∀ t ∈ exStore3, t.mac = pyLower "aa" →
          (∀ s, (some (60 : Int) : Option Int) = some s → s ≠ 0 → s ≤ t.timestamp) →
          (∀ s, (some (150 : Int) : Option Int) = some s → s ≠ 0 → t.timestamp ≤ s) →
          toHistoryEntry t ∈ ([{ timestamp := 100, rssi := -9, gateway := "g" }]
            : List TagHistoryEntry)) :=
  c8_history_bounds exStore3 "aa" 100 (some 60) (some 150)
    { mac := "aa",
      entries := [{ timestamp := 100, rssi := -9, gateway := "g" }],
      total := 1 } rfl

/-- Claim C9: for a valid limit, a mac with zero stored events makes both
`get_stats` and `get_history` fail with 404 and nothing else; a mac with at
least one event makes both succeed (no 404). -/
theorem c9_not_found (store : List TagRow) (gws : List GatewayRow)
    (mac : String) (now limit : Int) (start_time end_time : Option Int)
    (hlim : 1 ≤ limit ∧ limit ≤ 1000) :
    (rowsFor store (pyLower mac) = [] →
        get_stats store gws mac now = Except.error 404
        ∧ get_history store mac limit start_time end_time = Except.error 404)
    ∧ (rowsFor store (pyLower mac) ≠ [] →
        (∃ resp, get_stats store gws mac now = Except.ok resp)
        ∧ ∃ hresp, get_history store mac limit start_time end_time = Except.ok hresp) := by
  constructor
  · intro hempty
    constructor
    · unfold get_stats
      rw [hempty]
      rfl
    · unfold get_history
      rw [if_neg (by omega), hempty]
      rfl
  · intro hne
    constructor
    · unfold get_stats
      cases hh : (sortByTimestampDesc (rowsFor store (pyLower mac))).head? with
      | none =>
        exfalso
        apply hne
        rw [List.head?_eq_none_iff] at hh
        have hlen := length_sortByTimestampDesc (rowsFor store (pyLower mac))
        rw [hh] at hlen
        exact List.length_eq_zero.mp hlen.symm
      | some t =>
        exact ⟨mkStatsResponse now t, rfl⟩
    · unfold get_history
      rw [if_neg (by omega), if_neg (by simpa [List.isEmpty_iff] using hne)]
      exact ⟨_, rfl⟩

/-- Witness for `c9_not_found`: the empty store yields 404 on both
endpoints for mac `"aa"`. -/
theorem c9_not_found_witness :
    get_stats [] [] "aa" 0 = Except.error 404
    ∧ get_history [] "aa" 100 none none = Except.error 404 :=
  (c9_not_found [] [] "aa" 0 100 none none (by norm_num)).1 rfl

/-- Claim C10: both `get_stats` and `get_history` lowercase the queried mac
before looking it up, so querying any mac is the same as querying its
lowercased form (lowercasing is idempotent). -/
theorem c10_case_insensitive (store : List TagRow) (gws : List GatewayRow)
    (mac : String) (now limit : Int) (start_time end_time : Option Int) :
    get_stats store gws mac now = get_stats store gws (pyLower mac) now
    ∧ get_history store mac limit start_time end_time
        = get_history store (pyLower mac) limit start_time end_time := by
  have hid : pyLower (pyLower mac) = pyLower mac := pyLower_idem mac
  constructor
  · unfold get_stats
    rw [hid]
  · unfold get_history
    rw [hid]
